import Mathlib

/-!
Verification of the availability and booking engine
(app/services/schedule_service.py, app/services/booking_service.py,
app/repositories/booking_repository.py, app/repositories/employee_repository.py,
app/models/booking.py, backend/app/api/v1/bookings.py).

Shallow embedding conventions:
* Timestamps are naive whole minutes since an epoch that falls on a Monday;
  `minutesPerDay = 1440`.  `datetime.time()` becomes `timeOfDay`,
  `datetime.isoweekday()` becomes `isoweekday` (1 = Monday .. 7 = Sunday),
  `date.replace(hour=0, minute=0, ...)` becomes `dayStartOf`.
  The `23:59:59.999999` end-of-day bound used by `get_available_slots` is
  `dayStartOf t + 1439` at this one-minute granularity.
* The database is a `Store` value; every repository method is a pure
  function of the store, and writes return the updated store.
* Prices (`Decimal`) are integers; UUIDs are naturals.
* Human-readable failure reasons are carried structurally by
  `UnavailReason` instead of interpolated strings, with the same
  information content (`outsideHours` carries the day's shift windows in
  the order the repository returns them, mirroring the f-string that
  joins them).
-/

namespace BookingEngine

def minutesPerDay : Nat := 1440

def isoweekday (t : Nat) : Nat := t / minutesPerDay % 7 + 1

def timeOfDay (t : Nat) : Nat := t % minutesPerDay

def dayStartOf (t : Nat) : Nat := t / minutesPerDay * minutesPerDay

/-- Booking status names from `BookingStatusEnum` (app/core/enums.py). -/
inductive BookingStatus
  | pending
  | confirmed
  | completed
  | cancelled
  | no_show
deriving DecidableEq

/-- `BookingStatusEnum.to_status_id` (app/core/enums.py). -/
def BookingStatus.to_status_id : BookingStatus → Nat
  | .pending => 1
  | .confirmed => 2
  | .completed => 3
  | .cancelled => 4
  | .no_show => 5

/-- A `working_hours` row (`WorkingHoursResponse`). -/
structure WorkingHour where
  id : Nat
  employee_id : Nat
  day_of_week : Nat
  start_time : Nat
  end_time : Nat
deriving DecidableEq

/-- An `internal_events` row (`InternalEventResponse`). -/
structure InternalEvent where
  id : Nat
  employee_id : Nat
  type : String
  start_time : Nat
  end_time : Nat
deriving DecidableEq

/-- A `bookings` row joined with its status name (`BookingResponse`). -/
structure Booking where
  id : Nat
  customer_id : Nat
  location_id : Nat
  employee_id : Nat
  service_variant_id : Nat
  start_time : Nat
  end_time : Nat
  total_price : Int
  customer_note : Option String
  status : BookingStatus
deriving DecidableEq

/-- A `service_variants` row (the fields the engine reads). -/
structure ServiceVariant where
  id : Nat
  price : Int
  duration_minutes : Nat
deriving DecidableEq

/-- An `employee_skills` row (the fields `calculate_booking_price` reads). -/
structure EmployeeSkill where
  employee_id : Nat
  service_variant_id : Nat
  custom_price : Option Int
deriving DecidableEq

/-- The database state seen by the engine. `next_id` models the id the
database would assign to the next inserted booking. -/
structure Store where
  working_hours : List WorkingHour
  internal_events : List InternalEvent
  bookings : List Booking
  service_variants : List ServiceVariant
  employee_skills : List EmployeeSkill
  next_id : Nat
deriving DecidableEq

/-- Structural form of the `reason` strings produced by
`ScheduleService.check_availability`. -/
inductive UnavailReason
  | notWorking (day : Nat)
  | outsideHours (windows : List (Nat × Nat))
  | internalEvent (type : String) (start_time end_time : Nat)
deriving DecidableEq

/-- `AvailabilityResponse` (app/models/employee.py). -/
structure AvailabilityResponse where
  is_available : Bool
  reason : Option UnavailReason
deriving DecidableEq

/-- A generated slot dict `{start_time, end_time}`. -/
structure Slot where
  start_time : Nat
  end_time : Nat
deriving DecidableEq

/-- `BookingCreate` (app/models/booking.py): the request payload. -/
structure BookingCreate where
  customer_id : Nat
  location_id : Nat
  employee_id : Nat
  service_variant_id : Nat
  start_time : Nat
  end_time : Nat
  total_price : Option Int
  customer_note : Option String
deriving DecidableEq

/-- `BookingUpdate` (app/models/booking.py): the reschedule payload. -/
structure BookingUpdate where
  start_time : Option Nat
  end_time : Option Nat
  customer_note : Option String
deriving DecidableEq

/-- Pydantic validation failures on the booking models. -/
inductive ValidationErr
  | pastStart
  | endNotAfterStart
deriving DecidableEq

/-- The error taxonomy raised by the engine (`NotFoundError`,
`ConflictError` from the availability verdict, `ConflictError` from
double-cancel, pydantic validation). -/
inductive EngineError
  | notFound
  | conflictNotAvailable (reason : Option UnavailReason)
  | conflictCancel (status : BookingStatus)
  | validationError (v : ValidationErr)
deriving DecidableEq

deriving instance DecidableEq for Except

/-! ### SQL ORDER BY, as an insertion sort -/

def sortInsert (key : α → Nat) (a : α) : List α → List α
  | [] => [a]
  | b :: l => if key a ≤ key b then a :: b :: l else b :: sortInsert key a l

def sortByKey (key : α → Nat) : List α → List α
  | [] => []
  | a :: l => sortInsert key a (sortByKey key l)

/-! ### Repositories -/

namespace EmployeeRepository

/-- `EmployeeRepository.get_working_hours_for_day`: rows for one employee
and day, ordered by start time. -/
def get_working_hours_for_day (store : Store) (employee_id day_of_week : Nat) :
    List WorkingHour :=
  sortByKey (fun w => w.start_time)
    (store.working_hours.filter (fun w =>
      w.employee_id == employee_id && w.day_of_week == day_of_week))

/-- `EmployeeRepository.get_employee_internal_events`: rows for one
employee, with the optional closed range filters
`end_time >= start_date` and `start_time <= end_date`. -/
def get_employee_internal_events (store : Store) (employee_id : Nat)
    (start_date end_date : Option Nat) : List InternalEvent :=
  sortByKey (fun ev => ev.start_time)
    (store.internal_events.filter (fun ev =>
      ev.employee_id == employee_id &&
      (match start_date with
       | some s => decide (s ≤ ev.end_time)
       | none => true) &&
      (match end_date with
       | some e => decide (ev.start_time ≤ e)
       | none => true)))

/-- `EmployeeRepository.get_employee_skills`: the employee's skill rows.
The SQL orders by service and variant name; names are not part of the
model and no claim depends on that order. -/
def get_employee_skills (store : Store) (employee_id : Nat) : List EmployeeSkill :=
  store.employee_skills.filter (fun sk => sk.employee_id == employee_id)

end EmployeeRepository

namespace ServiceRepository

/-- `ServiceRepository.get_service_variant_by_id`. -/
def get_service_variant_by_id (store : Store) (service_variant_id : Nat) :
    Option ServiceVariant :=
  store.service_variants.find? (fun v => v.id == service_variant_id)

end ServiceRepository

namespace BookingRepository

/-- `BookingRepository.get_booking_by_id`. -/
def get_booking_by_id (store : Store) (booking_id : Nat) : Option Booking :=
  store.bookings.find? (fun b => b.id == booking_id)

/-- `BookingRepository.create_booking`: INSERT of the service-built row
(request fields plus the resolved `total_price` and the `status_id` the
service sets); the database assigns the id. -/
def create_booking (store : Store) (d : BookingCreate) (total_price : Int)
    (status : BookingStatus) : Booking × Store :=
  let b : Booking :=
    { id := store.next_id
      customer_id := d.customer_id
      location_id := d.location_id
      employee_id := d.employee_id
      service_variant_id := d.service_variant_id
      start_time := d.start_time
      end_time := d.end_time
      total_price := total_price
      customer_note := d.customer_note
      status := status }
  (b, { store with bookings := store.bookings ++ [b], next_id := store.next_id + 1 })

/-- `BookingRepository.update_booking`: UPDATE of exactly the fields the
service put in `update_dict` (provided start/end, and the note when it
is not None); returns the updated row, or none when the id is absent. -/
def update_booking (store : Store) (booking_id : Nat) (u : BookingUpdate) :
    Option Booking × Store :=
  let apply := fun (b : Booking) =>
    { b with
      start_time := u.start_time.getD b.start_time
      end_time := u.end_time.getD b.end_time
      customer_note :=
        match u.customer_note with
        | some n => some n
        | none => b.customer_note }
  match store.bookings.find? (fun b => b.id == booking_id) with
  | none => (none, store)
  | some b =>
    (some (apply b),
     { store with
        bookings := store.bookings.map (fun x => if x.id == booking_id then apply x else x) })

/-- `BookingRepository.update_booking_status`: sets the status column. -/
def update_booking_status (store : Store) (booking_id : Nat)
    (status : BookingStatus) : Option Booking × Store :=
  match store.bookings.find? (fun b => b.id == booking_id) with
  | none => (none, store)
  | some b =>
    (some { b with status := status },
     { store with
        bookings := store.bookings.map (fun x =>
          if x.id == booking_id then { x with status := status } else x) })

/-- `BookingRepository.get_employee_bookings_in_range`: the employee's
rows whose status is not cancelled / no_show and that satisfy
`(start < range_end AND end > range_start) OR
 (start >= range_start AND start < range_end)`, ordered by start. -/
def get_employee_bookings_in_range (store : Store)
    (employee_id start_time end_time : Nat) : List Booking :=
  sortByKey (fun b => b.start_time)
    (store.bookings.filter (fun b =>
      b.employee_id == employee_id &&
      !(b.status == .cancelled) && !(b.status == .no_show) &&
      ((decide (b.start_time < end_time) && decide (start_time < b.end_time)) ||
       (decide (start_time ≤ b.start_time) && decide (b.start_time < end_time)))))

end BookingRepository

/-! ### ScheduleService -/

namespace ScheduleService

/-- `ScheduleService._times_overlap`: `start1 < end2 and start2 < end1`. -/
def times_overlap (start1 end1 start2 end2 : Nat) : Bool :=
  decide (start1 < end2) && decide (start2 < end1)

/-- `ScheduleService.check_availability`. -/
def check_availability (store : Store) (employee_id start_time end_time : Nat) :
    AvailabilityResponse :=
  let day_of_week := isoweekday start_time
  let working_hours :=
    EmployeeRepository.get_working_hours_for_day store employee_id day_of_week
  if working_hours.isEmpty then
    { is_available := false, reason := some (.notWorking day_of_week) }
  else
    let booking_start_time := timeOfDay start_time
    let booking_end_time := timeOfDay end_time
    let is_within_working_hours := working_hours.any (fun shift =>
      decide (shift.start_time ≤ booking_start_time) &&
      decide (booking_end_time ≤ shift.end_time))
    if !is_within_working_hours then
      { is_available := false
        reason := some (.outsideHours
          (working_hours.map (fun wh => (wh.start_time, wh.end_time)))) }
    else
      let internal_events :=
        EmployeeRepository.get_employee_internal_events store employee_id
          (some start_time) (some end_time)
      match internal_events.find? (fun event =>
          times_overlap start_time end_time event.start_time event.end_time) with
      | some event =>
        { is_available := false
          reason := some (.internalEvent event.type event.start_time event.end_time) }
      | none => { is_available := true, reason := none }

/-- The per-candidate conflict test of `get_available_slots`: an internal
event overlap, or else a fetched-booking overlap. -/
def slotConflict (internal_events : List InternalEvent) (bookings : List Booking)
    (slot_start slot_end : Nat) : Bool :=
  internal_events.any (fun event =>
    times_overlap slot_start slot_end event.start_time event.end_time) ||
  bookings.any (fun b =>
    times_overlap slot_start slot_end b.start_time b.end_time)

/-- The cursor loop of `get_available_slots` over one shift
(`while current_slot_start + duration <= shift_end`), with explicit fuel;
the fuel passed by `slotsForShifts` suffices for any positive interval. -/
def slotLoop (internal_events : List InternalEvent) (bookings : List Booking)
    (duration_minutes slot_interval_minutes shift_end : Nat) :
    Nat → Nat → List Slot
  | 0, _ => []
  | fuel + 1, current_slot_start =>
    if current_slot_start + duration_minutes ≤ shift_end then
      let slot_end := current_slot_start + duration_minutes
      let rest := slotLoop internal_events bookings duration_minutes
        slot_interval_minutes shift_end fuel (current_slot_start + slot_interval_minutes)
      if slotConflict internal_events bookings current_slot_start slot_end then rest
      else ⟨current_slot_start, slot_end⟩ :: rest
    else []

/-- The `for shift in working_hours` loop of `get_available_slots`:
slots of each shift, concatenated in shift order. -/
def slotsForShifts (internal_events : List InternalEvent) (bookings : List Booking)
    (duration_minutes slot_interval_minutes day_start : Nat) :
    List WorkingHour → List Slot
  | [] => []
  | shift :: rest =>
    slotLoop internal_events bookings duration_minutes slot_interval_minutes
        (day_start + shift.end_time) (shift.end_time - shift.start_time + 1)
        (day_start + shift.start_time)
      ++ slotsForShifts internal_events bookings duration_minutes
          slot_interval_minutes day_start rest

/-- `ScheduleService.get_available_slots`. -/
def get_available_slots (store : Store) (employee_id : Nat)
    (date duration_minutes slot_interval_minutes : Nat) : List Slot :=
  let day_of_week := isoweekday date
  let working_hours :=
    EmployeeRepository.get_working_hours_for_day store employee_id day_of_week
  if working_hours.isEmpty then []
  else
    let day_start := dayStartOf date
    let day_end := day_start + (minutesPerDay - 1)
    let internal_events :=
      EmployeeRepository.get_employee_internal_events store employee_id
        (some day_start) (some day_end)
    let bookings :=
      BookingRepository.get_employee_bookings_in_range store employee_id
        day_start day_end
    slotsForShifts internal_events bookings duration_minutes
      slot_interval_minutes day_start working_hours

end ScheduleService

/-! ### BookingService -/

namespace BookingService

/-- `BookingService.check_availability`: delegates to the ScheduleService. -/
def check_availability (store : Store) (employee_id start_time end_time : Nat) :
    AvailabilityResponse :=
  ScheduleService.check_availability store employee_id start_time end_time

/-- The `for skill in employee_skills` loop of
`BookingService.calculate_booking_price`: the first matching skill whose
`custom_price` is not None wins; a matching skill with a None
custom price does not stop the scan. -/
def custom_price_override (service_variant_id : Nat) : List EmployeeSkill → Option Int
  | [] => none
  | skill :: rest =>
    if skill.service_variant_id == service_variant_id then
      match skill.custom_price with
      | some p => some p
      | none => custom_price_override service_variant_id rest
    else custom_price_override service_variant_id rest

/-- `BookingService.calculate_booking_price`. -/
def calculate_booking_price (store : Store) (employee_id service_variant_id : Nat) :
    Except EngineError Int :=
  match ServiceRepository.get_service_variant_by_id store service_variant_id with
  | none => .error .notFound
  | some service_variant =>
    match custom_price_override service_variant_id
        (EmployeeRepository.get_employee_skills store employee_id) with
    | some p => .ok p
    | none => .ok service_variant.price

/-- `BookingService.create_booking`. -/
def create_booking (store : Store) (booking_data : BookingCreate) :
    Except EngineError Booking × Store :=
  let availability := check_availability store booking_data.employee_id
    booking_data.start_time booking_data.end_time
  if !availability.is_available then
    (.error (.conflictNotAvailable availability.reason), store)
  else
    match calculate_booking_price store booking_data.employee_id
        booking_data.service_variant_id with
    | .error e => (.error e, store)
    | .ok total_price =>
      let r := BookingRepository.create_booking store booking_data total_price .pending
      (.ok r.1, r.2)

/-- `BookingService.reschedule_booking`. -/
def reschedule_booking (store : Store) (booking_id : Nat)
    (booking_data : BookingUpdate) : Except EngineError Booking × Store :=
  match BookingRepository.get_booking_by_id store booking_id with
  | none => (.error .notFound, store)
  | some existing =>
    let new_start := booking_data.start_time.getD existing.start_time
    let new_end := booking_data.end_time.getD existing.end_time
    let availability :=
      check_availability store existing.employee_id new_start new_end
    if !availability.is_available then
      (.error (.conflictNotAvailable availability.reason), store)
    else
      match BookingRepository.update_booking store booking_id booking_data with
      | (none, store') => (.error .notFound, store')
      | (some updated, store') => (.ok updated, store')

/-- `BookingService.cancel_booking`. -/
def cancel_booking (store : Store) (booking_id : Nat) :
    Except EngineError Booking × Store :=
  match BookingRepository.get_booking_by_id store booking_id with
  | none => (.error .notFound, store)
  | some booking =>
    if booking.status == .cancelled || booking.status == .completed then
      (.error (.conflictCancel booking.status), store)
    else
      match BookingRepository.update_booking_status store booking_id .cancelled with
      | (none, store') => (.error .notFound, store')
      | (some cancelled, store') => (.ok cancelled, store')

end BookingService

/-! ### Pydantic validation (app/models/booking.py) and the API layer -/

/-- `BookingCreate`'s validators: `validate_future_time` (field
validator, runs first) then `check_time_order` (model validator). -/
def BookingCreate.validate (now : Nat) (d : BookingCreate) : Option ValidationErr :=
  if d.start_time < now then some .pastStart
  else if d.end_time ≤ d.start_time then some .endNotAfterStart
  else none

/-- `BookingUpdate`'s validators: a supplied start must not be in the
past, and `end_time <= start_time` is rejected only when both bounds are
supplied. -/
def BookingUpdate.validate (now : Nat) (u : BookingUpdate) : Option ValidationErr :=
  if (match u.start_time with
      | some s => decide (s < now)
      | none => false) then some .pastStart
  else
    match u.start_time, u.end_time with
    | some s, some e => if e ≤ s then some .endNotAfterStart else none
    | _, _ => none

namespace BookingsApi

/-- POST /bookings (backend/app/api/v1/bookings.py): request-model
validation, then `BookingService.create_booking`. -/
def create_booking (now : Nat) (store : Store) (booking_data : BookingCreate) :
    Except EngineError Booking × Store :=
  match BookingCreate.validate now booking_data with
  | some v => (.error (.validationError v), store)
  | none => BookingService.create_booking store booking_data

/-- PUT /bookings/{id}: request-model validation, then
`BookingService.reschedule_booking`. -/
def reschedule_booking (now : Nat) (store : Store) (booking_id : Nat)
    (booking_data : BookingUpdate) : Except EngineError Booking × Store :=
  match BookingUpdate.validate now booking_data with
  | some v => (.error (.validationError v), store)
  | none => BookingService.reschedule_booking store booking_id booking_data

/-- PATCH /bookings/{id}/status (`update_booking_status` endpoint): calls
the repository directly; 404 when the booking is absent, no other check. -/
def update_booking_status (store : Store) (booking_id : Nat)
    (status : BookingStatus) : Except EngineError Booking × Store :=
  match BookingRepository.update_booking_status store booking_id status with
  | (none, store') => (.error .notFound, store')
  | (some updated, store') => (.ok updated, store')

end BookingsApi

/-- The row `BookingService.create_booking` persists on success: the
request fields with the resolved price and the initial pending status
(`status_id` 1), under the id the store assigns. -/
def createdBooking (store : Store) (d : BookingCreate) (total_price : Int) : Booking :=
  { id := store.next_id
    customer_id := d.customer_id
    location_id := d.location_id
    employee_id := d.employee_id
    service_variant_id := d.service_variant_id
    start_time := d.start_time
    end_time := d.end_time
    total_price := total_price
    customer_note := d.customer_note
    status := .pending }

/-! ### Concrete stores used by witnesses and counterexamples

Timestamp 0 is midnight of a Monday (`isoweekday 0 = 1`), so day-0
times of day read directly as minutes: 540 = 09:00, 600 = 10:00,
660 = 11:00, 1020 = 17:00. -/

/-- Employee 1 works Monday 09:00-17:00; one committed (pending) booking
10:00-11:00 on Monday day 0; service variant 1 has base price 500 and a
staff custom price 400 for employee 1; no internal events. -/
def storeA : Store :=
  { working_hours := [⟨1, 1, 1, 540, 1020⟩]
    internal_events := []
    bookings := [⟨10, 2, 3, 1, 1, 600, 660, 500, none, .pending⟩]
    service_variants := [⟨1, 500, 60⟩]
    employee_skills := [⟨1, 1, some 400⟩]
    next_id := 100 }

/-- Like `storeA` but with a `no_show` booking (id 20) and a `completed`
booking (id 21) for exercising the status operations. -/
def storeB : Store :=
  { working_hours := [⟨1, 1, 1, 540, 1020⟩]
    internal_events := []
    bookings :=
      [⟨20, 2, 3, 1, 1, 600, 660, 500, none, .no_show⟩,
       ⟨21, 2, 3, 1, 1, 700, 760, 500, none, .completed⟩]
    service_variants := [⟨1, 500, 60⟩]
    employee_skills := []
    next_id := 100 }

/-- A create request for employee 1, Monday 12:00-13:00 (day 0). -/
def requestNoon : BookingCreate :=
  { customer_id := 2, location_id := 3, employee_id := 1, service_variant_id := 1
    start_time := 720, end_time := 780, total_price := none, customer_note := none }

/-- A create request overlapping `requestNoon`: Monday 12:30-13:30. -/
def requestNoonOverlap : BookingCreate :=
  { customer_id := 4, location_id := 3, employee_id := 1, service_variant_id := 1
    start_time := 750, end_time := 810, total_price := none, customer_note := none }

/-- A create request at an available time whose service variant (99) does
not exist. -/
def requestMissingVariant : BookingCreate :=
  { customer_id := 2, location_id := 3, employee_id := 1, service_variant_id := 99
    start_time := 720, end_time := 780, total_price := none, customer_note := none }

/-- A reschedule supplying only a new start (12:00), later than the
stored end of booking 10 (11:00): the effective interval is malformed. -/
def updateOnlyStart : BookingUpdate :=
  { start_time := some 720, end_time := none, customer_note := none }

/-- Claim C2's spec-side candidate set, modelled from the spec's words: a
cursor-aligned candidate walks from some fetched shift rule's start in
steps of the slot interval and fits before the rule's end. -/
def CursorAligned (store : Store) (employee_id date duration_minutes
    slot_interval_minutes : Nat) (c : Slot) : Prop :=
  ∃ w ∈ EmployeeRepository.get_working_hours_for_day store employee_id
      (isoweekday date), ∃ k : Nat,
    c.start_time = dayStartOf date + w.start_time + k * slot_interval_minutes ∧
    c.end_time = c.start_time + duration_minutes ∧
    c.end_time ≤ dayStartOf date + w.end_time

/-! ### General lemmas -/

theorem mem_sortInsert (key : α → Nat) (a x : α) (l : List α) :
    x ∈ sortInsert key a l ↔ x = a ∨ x ∈ l := by
  induction l with
  | nil => simp [sortInsert]
  | cons b l ih =>
    by_cases h : key a ≤ key b
    · simp [sortInsert, h]
    · simp [sortInsert, h, ih]
      tauto

theorem mem_sortByKey (key : α → Nat) (x : α) (l : List α) :
    x ∈ sortByKey key l ↔ x ∈ l := by
  induction l with
  | nil => simp [sortByKey]
  | cons a l ih => simp [sortByKey, mem_sortInsert, ih]

/-! ### Claim theorems -/

/-- C1: the claim states that `check_availability` returns unavailable
with reason "conflicting booking" when a committed non-cancelled,
non-no_show booking strictly overlaps the requested interval.  The code
has no such step: in `storeA`, employee 1 has a pending booking
10:00-11:00 on a Monday within working hours, it strictly overlaps the
candidate 10:00-11:00 under the half-open test, and `check_availability`
still returns available with no reason. -/
theorem C1_evaluator_ignores_booking_conflicts :
    (storeA.bookings.any (fun b =>
      b.employee_id == 1 && !(b.status == .cancelled) && !(b.status == .no_show) &&
      ScheduleService.times_overlap b.start_time b.end_time 600 660)) = true ∧
    ScheduleService.check_availability storeA 1 600 660 =
      { is_available := true, reason := none } :=
  ⟨by decide, by decide⟩

/-- C2: the claim states that `get_available_slots` returns exactly the
cursor-aligned candidates `check_availability` accepts.  In `storeA` the
cursor-aligned candidate 10:00-11:00 (shift start 09:00 plus two
30-minute steps, duration 60) is accepted by `check_availability`, yet
the generator omits it because of the pending booking it alone filters
against. -/
theorem C2_generator_stricter_than_evaluator :
    CursorAligned storeA 1 0 60 30 ⟨600, 660⟩ ∧
    (ScheduleService.check_availability storeA 1 600 660).is_available = true ∧
    (⟨600, 660⟩ : Slot) ∉ ScheduleService.get_available_slots storeA 1 0 60 30 :=
  ⟨⟨⟨1, 1, 1, 540, 1020⟩, by decide, 2, by decide, by decide, by decide⟩,
   by decide, by decide⟩

/-- C4: the claim states that among two overlapping `create_booking`
calls for the same staff member at most one commits.  Because the
evaluator never looks at existing bookings and the store enforces no
non-overlap constraint, two overlapping creates (here run one after the
other, the simplest schedule) both commit: 12:00-13:00 and then
12:30-13:30 for employee 1 both return a persisted pending booking. -/
theorem C4_overlapping_creates_both_commit :
    (BookingService.create_booking storeA requestNoon).1 =
      .ok ⟨100, 2, 3, 1, 1, 720, 780, 400, none, .pending⟩ ∧
    (BookingService.create_booking
        (BookingService.create_booking storeA requestNoon).2 requestNoonOverlap).1 =
      .ok ⟨101, 4, 3, 1, 1, 750, 810, 400, none, .pending⟩ ∧
    ScheduleService.times_overlap requestNoon.start_time requestNoon.end_time
      requestNoonOverlap.start_time requestNoonOverlap.end_time = true :=
  ⟨by decide, by decide, by decide⟩

/-- C3 counterexample: the claim states that no engine operation moves a
booking out of a terminal status (`completed`, `cancelled`, `no_show`).
In `storeB`, `cancel_booking` happily cancels the `no_show` booking 20,
and the status endpoint moves the `completed` booking 21 back to
`confirmed`. -/
theorem C3_counterexample_terminal_states_left :
    BookingRepository.get_booking_by_id storeB 20 =
      some ⟨20, 2, 3, 1, 1, 600, 660, 500, none, .no_show⟩ ∧
    (BookingService.cancel_booking storeB 20).1 =
      .ok ⟨20, 2, 3, 1, 1, 600, 660, 500, none, .cancelled⟩ ∧
    BookingRepository.get_booking_by_id storeB 21 =
      some ⟨21, 2, 3, 1, 1, 700, 760, 500, none, .completed⟩ ∧
    (BookingsApi.update_booking_status storeB 21 .confirmed).1 =
      .ok ⟨21, 2, 3, 1, 1, 700, 760, 500, none, .confirmed⟩ :=
  ⟨by decide, by decide, by decide, by decide⟩

/-- C3 amended: `cancel_booking` refuses only bookings already
`cancelled` or `completed` (so a `no_show` booking is transitioned to
`cancelled`), and the direct status-change endpoint applies any requested
status to any existing booking, with no terminal-state guard. -/
theorem C3_cancel_and_status_guards (store : Store) (booking_id : Nat) (b : Booking)
    (hb : BookingRepository.get_booking_by_id store booking_id = some b) :
    (b.status = .cancelled ∨ b.status = .completed →
      BookingService.cancel_booking store booking_id =
        (.error (.conflictCancel b.status), store)) ∧
    (b.status ≠ .cancelled → b.status ≠ .completed →
      (BookingService.cancel_booking store booking_id).1 =
        .ok { b with status := .cancelled }) ∧
    (∀ target : BookingStatus,
      (BookingsApi.update_booking_status store booking_id target).1 =
        .ok { b with status := target }) := by
  unfold BookingRepository.get_booking_by_id at hb
  refine ⟨?_, ?_, ?_⟩
  · intro hterm
    unfold BookingService.cancel_booking BookingRepository.get_booking_by_id
    rw [hb]
    rcases hterm with h | h <;> simp [h]
  · intro h1 h2
    unfold BookingService.cancel_booking BookingRepository.get_booking_by_id
      BookingRepository.update_booking_status
    rw [hb]
    simp [h1, h2]
  · intro target
    unfold BookingsApi.update_booking_status BookingRepository.update_booking_status
    rw [hb]

/-- C3 witness: applying the amended theorem to the `no_show` booking 20
of `storeB` shows it gets cancelled. -/
theorem C3_cancel_and_status_guards_witness :
    (BookingService.cancel_booking storeB 20).1 =
      .ok ⟨20, 2, 3, 1, 1, 600, 660, 500, none, .cancelled⟩ :=
  (C3_cancel_and_status_guards storeB 20
      ⟨20, 2, 3, 1, 1, 600, 660, 500, none, .no_show⟩ (by decide)).2.1
    (by decide) (by decide)

/-- C6 counterexample: the claim states that whenever the evaluator
returns available, `create_booking` persists the booking.  With an
available interval but a nonexistent service variant (id 99), the call
raises NotFound instead and persists nothing. -/
theorem C6_counterexample_missing_variant :
    (ScheduleService.check_availability storeA requestMissingVariant.employee_id
      requestMissingVariant.start_time requestMissingVariant.end_time).is_available
        = true ∧
    BookingService.create_booking storeA requestMissingVariant =
      (.error .notFound, storeA) :=
  ⟨by decide, by decide⟩

theorem calculate_booking_price_error (store : Store) (employee_id service_variant_id : Nat)
    (e : EngineError)
    (h : BookingService.calculate_booking_price store employee_id service_variant_id =
      .error e) : e = .notFound := by
  unfold BookingService.calculate_booking_price at h
  cases hv : ServiceRepository.get_service_variant_by_id store service_variant_id with
  | none => rw [hv] at h; cases h; rfl
  | some v =>
    rw [hv] at h
    cases hc : BookingService.custom_price_override service_variant_id
        (EmployeeRepository.get_employee_skills store employee_id) with
    | none => rw [hc] at h; cases h
    | some p => rw [hc] at h; cases h

/-- C6 amended: `create_booking` raises a Conflict carrying the
availability verdict's reason iff the evaluator returns unavailable;
when the evaluator returns available and the pricing resolver succeeds,
it persists the booking with initial status pending and the resolver's
price and returns it; the caller-supplied `total_price` is ignored (the
whole call is independent of it). -/
theorem C6_create_booking_contract (store : Store) (d : BookingCreate) :
    ((ScheduleService.check_availability store d.employee_id d.start_time
        d.end_time).is_available = false →
      BookingService.create_booking store d =
        (.error (.conflictNotAvailable (ScheduleService.check_availability store
          d.employee_id d.start_time d.end_time).reason), store)) ∧
    (∀ r, (BookingService.create_booking store d).1 =
        .error (.conflictNotAvailable r) →
      (ScheduleService.check_availability store d.employee_id d.start_time
        d.end_time).is_available = false ∧
      r = (ScheduleService.check_availability store d.employee_id d.start_time
        d.end_time).reason) ∧
    ((ScheduleService.check_availability store d.employee_id d.start_time
        d.end_time).is_available = true →
      ∀ p, BookingService.calculate_booking_price store d.employee_id
          d.service_variant_id = .ok p →
        BookingService.create_booking store d =
          (.ok (createdBooking store d p),
           { store with
              bookings := store.bookings ++ [createdBooking store d p]
              next_id := store.next_id + 1 })) ∧
    (∀ tp, BookingService.create_booking store { d with total_price := tp } =
      BookingService.create_booking store d) := by
  refine ⟨?_, ?_, ?_, ?_⟩
  · intro h
    unfold BookingService.create_booking BookingService.check_availability
    simp [h]
  · intro r h
    unfold BookingService.create_booking BookingService.check_availability at h
    by_cases hav : (ScheduleService.check_availability store d.employee_id
        d.start_time d.end_time).is_available
    · simp only [hav] at h
      cases hc : BookingService.calculate_booking_price store d.employee_id
          d.service_variant_id with
      | error e2 =>
        have he2 := calculate_booking_price_error store d.employee_id
          d.service_variant_id e2 hc
        subst he2
        simp [hc] at h
      | ok p => simp [hc] at h
    · simp only [Bool.not_eq_true] at hav
      simp [hav] at h
      exact ⟨hav, h.symm⟩
  · intro hav p hp
    unfold BookingService.create_booking BookingService.check_availability
    simp [hav, hp, BookingRepository.create_booking, createdBooking]
  · intro tp
    rfl

/-- C6 witness: applying the contract to `storeA` and the noon request,
whose verdict is available and whose variant exists, yields the persisted
pending booking with the staff-override price 400. -/
theorem C6_create_booking_contract_witness :
    BookingService.create_booking storeA requestNoon =
      (.ok (createdBooking storeA requestNoon 400),
       { storeA with
          bookings := storeA.bookings ++ [createdBooking storeA requestNoon 400]
          next_id := storeA.next_id + 1 }) :=
  (C6_create_booking_contract storeA requestNoon).2.2.1 (by decide) 400 (by decide)

/-- C8 counterexample: the claim states every reschedule whose effective
interval is malformed is rejected with a validation error, including one
supplying only one bound.  A reschedule of booking 10 (10:00-11:00)
supplying only a new start of 12:00 passes validation, reaches the store,
and persists the malformed interval 12:00-11:00. -/
theorem C8_counterexample_malformed_reschedule :
    BookingUpdate.validate 0 updateOnlyStart = none ∧
    (BookingsApi.reschedule_booking 0 storeA 10 updateOnlyStart).1 =
      .ok ⟨10, 2, 3, 1, 1, 720, 660, 500, none, .pending⟩ ∧
    (660 : Nat) ≤ 720 :=
  ⟨by decide, by decide, by decide⟩

/-- C8 amended: create requests are rejected with a validation error,
before any store access (the outcome is the same for every store), when
the start is in the past or the interval is not forward; a reschedule is
so rejected when its supplied start is in the past, or when it supplies
both bounds and they are not forward.  (A reschedule supplying only one
bound is not re-validated against the stored other bound.) -/
theorem C8_validation_before_store (now : Nat) (store : Store) (d : BookingCreate)
    (booking_id : Nat) (u : BookingUpdate) :
    (d.start_time < now →
      BookingsApi.create_booking now store d =
        (.error (.validationError .pastStart), store)) ∧
    (now ≤ d.start_time → d.end_time ≤ d.start_time →
      BookingsApi.create_booking now store d =
        (.error (.validationError .endNotAfterStart), store)) ∧
    (∀ s, u.start_time = some s → s < now →
      BookingsApi.reschedule_booking now store booking_id u =
        (.error (.validationError .pastStart), store)) ∧
    (∀ s e, u.start_time = some s → u.end_time = some e → now ≤ s → e ≤ s →
      BookingsApi.reschedule_booking now store booking_id u =
        (.error (.validationError .endNotAfterStart), store)) := by
  refine ⟨?_, ?_, ?_, ?_⟩
  · intro h
    unfold BookingsApi.create_booking BookingCreate.validate
    simp [h]
  · intro h1 h2
    unfold BookingsApi.create_booking BookingCreate.validate
    simp [Nat.not_lt.mpr h1, h2]
  · intro s hs hlt
    unfold BookingsApi.reschedule_booking BookingUpdate.validate
    simp [hs, hlt]
  · intro s e hs he hge hle
    unfold BookingsApi.reschedule_booking BookingUpdate.validate
    simp [hs, he, Nat.not_lt.mpr hge, hle]

/-- C8 witness: the noon create request against a clock already at
16:40 is rejected as a past booking, identically for `storeA`. -/
theorem C8_validation_before_store_witness :
    BookingsApi.create_booking 1000 storeA requestNoon =
      (.error (.validationError .pastStart), storeA) :=
  (C8_validation_before_store 1000 storeA requestNoon 0 updateOnlyStart).1 (by decide)

/-- C10: whenever `create_booking`, `reschedule_booking` or
`cancel_booking` returns an error (NotFound, Conflict), the store is
returned exactly as it was: every error is raised before any write. -/
theorem C10_errors_leave_store_unchanged (store : Store) :
    (∀ d e, (BookingService.create_booking store d).1 = .error e →
      (BookingService.create_booking store d).2 = store) ∧
    (∀ booking_id u e,
      (BookingService.reschedule_booking store booking_id u).1 = .error e →
      (BookingService.reschedule_booking store booking_id u).2 = store) ∧
    (∀ booking_id e,
      (BookingService.cancel_booking store booking_id).1 = .error e →
      (BookingService.cancel_booking store booking_id).2 = store) := by
  refine ⟨?_, ?_, ?_⟩
  · intro d e h
    unfold BookingService.create_booking at h ⊢
    by_cases hav : (BookingService.check_availability store d.employee_id
        d.start_time d.end_time).is_available
    · simp only [hav] at h ⊢
      cases hc : BookingService.calculate_booking_price store d.employee_id
          d.service_variant_id with
      | error e2 => simp [hc]
      | ok p => simp [hc] at h
    · simp [hav]
  · intro booking_id u e h
    unfold BookingService.reschedule_booking at h ⊢
    cases hg : BookingRepository.get_booking_by_id store booking_id with
    | none => simp [hg]
    | some ex =>
      simp only [hg] at h ⊢
      by_cases hav : (BookingService.check_availability store ex.employee_id
          (u.start_time.getD ex.start_time) (u.end_time.getD ex.end_time)).is_available
      · simp only [hav] at h ⊢
        unfold BookingRepository.update_booking at h ⊢
        cases hf : store.bookings.find? (fun b => b.id == booking_id) with
        | none => simp [hf]
        | some b => simp [hf] at h
      · simp [hav]
  · intro booking_id e h
    unfold BookingService.cancel_booking at h ⊢
    cases hg : BookingRepository.get_booking_by_id store booking_id with
    | none => simp [hg]
    | some b =>
      simp only [hg] at h ⊢
      by_cases hterm : (b.status == BookingStatus.cancelled ||
          b.status == BookingStatus.completed) = true
      · simp [hterm]
      · simp only [hterm] at h ⊢
        unfold BookingRepository.update_booking_status at h ⊢
        cases hf : store.bookings.find? (fun x => x.id == booking_id) with
        | none => simp [hf]
        | some x => simp [hterm, hf] at h

/-- C10 witness: the create whose service variant is missing errors and
leaves `storeA` untouched. -/
theorem C10_errors_leave_store_unchanged_witness :
    (BookingService.create_booking storeA requestMissingVariant).2 = storeA :=
  (C10_errors_leave_store_unchanged storeA).1 requestMissingVariant .notFound (by decide)

theorem custom_price_override_eq_none (service_variant_id : Nat) (l : List EmployeeSkill)
    (h : ∀ sk ∈ l, sk.service_variant_id = service_variant_id → sk.custom_price = none) :
    BookingService.custom_price_override service_variant_id l = none := by
  induction l with
  | nil => rfl
  | cons sk rest ih =>
    simp only [BookingService.custom_price_override]
    by_cases hm : (sk.service_variant_id == service_variant_id) = true
    · rw [if_pos hm, h sk (List.mem_cons_self _ _) (beq_iff_eq.mp hm)]
      exact ih (fun a ha hb => h a (List.mem_cons_of_mem _ ha) hb)
    · rw [if_neg hm]
      exact ih (fun a ha hb => h a (List.mem_cons_of_mem _ ha) hb)

theorem custom_price_override_eq_some (service_variant_id : Nat) (l : List EmployeeSkill)
    (sk0 : EmployeeSkill) (p : Int)
    (hf : l.filter (fun sk => sk.service_variant_id == service_variant_id) = [sk0])
    (hp : sk0.custom_price = some p) :
    BookingService.custom_price_override service_variant_id l = some p := by
  induction l with
  | nil => simp at hf
  | cons sk rest ih =>
    rw [List.filter_cons] at hf
    simp only [BookingService.custom_price_override]
    by_cases hm : (sk.service_variant_id == service_variant_id) = true
    · rw [if_pos hm] at hf
      rw [if_pos hm]
      have hsk : sk = sk0 := (List.cons.injEq _ _ _ _ ▸ hf).1
      rw [hsk, hp]
    · rw [if_neg hm] at hf
      rw [if_neg hm]
      exact ih hf

/-- C7: `calculate_booking_price` fails with NotFound when the service
variant does not exist; returns the variant's base price when no skill
row of the staff member carries a custom price for that variant; and
returns the custom price when the staff member has exactly one skill row
for the variant and it carries one. -/
theorem C7_pricing_resolution (store : Store) (employee_id service_variant_id : Nat) :
    (ServiceRepository.get_service_variant_by_id store service_variant_id = none →
      BookingService.calculate_booking_price store employee_id service_variant_id =
        .error .notFound) ∧
    (∀ v, ServiceRepository.get_service_variant_by_id store service_variant_id = some v →
      (∀ sk ∈ EmployeeRepository.get_employee_skills store employee_id,
        sk.service_variant_id = service_variant_id → sk.custom_price = none) →
      BookingService.calculate_booking_price store employee_id service_variant_id =
        .ok v.price) ∧
    (∀ v sk0 p,
      ServiceRepository.get_service_variant_by_id store service_variant_id = some v →
      (EmployeeRepository.get_employee_skills store employee_id).filter
        (fun sk => sk.service_variant_id == service_variant_id) = [sk0] →
      sk0.custom_price = some p →
      BookingService.calculate_booking_price store employee_id service_variant_id =
        .ok p) := by
  refine ⟨?_, ?_, ?_⟩
  · intro h
    unfold BookingService.calculate_booking_price
    rw [h]
  · intro v hv hnone
    unfold BookingService.calculate_booking_price
    rw [hv, custom_price_override_eq_none _ _ hnone]
  · intro v sk0 p hv hf hp
    unfold BookingService.calculate_booking_price
    rw [hv, custom_price_override_eq_some _ _ sk0 p hf hp]

/-- C7 witness: in `storeA` the variant's base price is 500 and employee
1 has a custom price 400 for it; the resolver returns 400. -/
theorem C7_pricing_resolution_witness :
    BookingService.calculate_booking_price storeA 1 1 = .ok 400 ∧
    ServiceRepository.get_service_variant_by_id storeA 1 = some ⟨1, 500, 60⟩ :=
  ⟨(C7_pricing_resolution storeA 1 1).2.2 ⟨1, 500, 60⟩ ⟨1, 1, some 400⟩ 400
      (by decide) (by decide) (by decide),
   by decide⟩

theorem mem_get_working_hours_for_day (store : Store) (employee_id day_of_week : Nat)
    (w : WorkingHour) :
    w ∈ EmployeeRepository.get_working_hours_for_day store employee_id day_of_week ↔
      w ∈ store.working_hours ∧ w.employee_id = employee_id ∧
        w.day_of_week = day_of_week := by
  unfold EmployeeRepository.get_working_hours_for_day
  rw [mem_sortByKey]
  simp [List.mem_filter, and_assoc]

theorem mem_get_employee_internal_events (store : Store) (employee_id a b : Nat)
    (ev : InternalEvent) :
    ev ∈ EmployeeRepository.get_employee_internal_events store employee_id
        (some a) (some b) ↔
      ev ∈ store.internal_events ∧ ev.employee_id = employee_id ∧
        a ≤ ev.end_time ∧ ev.start_time ≤ b := by
  unfold EmployeeRepository.get_employee_internal_events
  rw [mem_sortByKey]
  simp [List.mem_filter, and_assoc]

theorem check_availability_available (store : Store)
    (employee_id start_time end_time : Nat)
    (hw : ∃ w ∈ EmployeeRepository.get_working_hours_for_day store employee_id
        (isoweekday start_time),
      w.start_time ≤ timeOfDay start_time ∧ timeOfDay end_time ≤ w.end_time)
    (hev : ∀ ev ∈ store.internal_events, ev.employee_id = employee_id →
      ScheduleService.times_overlap start_time end_time ev.start_time ev.end_time
        = false) :
    ScheduleService.check_availability store employee_id start_time end_time =
      { is_available := true, reason := none } := by
  obtain ⟨w, hwmem, hws, hwe⟩ := hw
  have hne : (EmployeeRepository.get_working_hours_for_day store employee_id
      (isoweekday start_time)).isEmpty = false := by
    cases hlist : EmployeeRepository.get_working_hours_for_day store employee_id
        (isoweekday start_time) with
    | nil => rw [hlist] at hwmem; cases hwmem
    | cons a l => simp
  have hany : (EmployeeRepository.get_working_hours_for_day store employee_id
      (isoweekday start_time)).any (fun shift =>
        decide (shift.start_time ≤ timeOfDay start_time) &&
        decide (timeOfDay end_time ≤ shift.end_time)) = true :=
    List.any_eq_true.mpr ⟨w, hwmem, by simp [hws, hwe]⟩
  have hfind : (EmployeeRepository.get_employee_internal_events store employee_id
      (some start_time) (some end_time)).find? (fun event =>
        ScheduleService.times_overlap start_time end_time event.start_time
          event.end_time) = none := by
    rw [List.find?_eq_none]
    intro ev hmem
    rw [mem_get_employee_internal_events] at hmem
    simp [hev ev hmem.1 hmem.2.1]
  unfold ScheduleService.check_availability
  simp [hne, hany, hfind]

theorem check_availability_outside (store : Store)
    (employee_id start_time end_time : Nat)
    (hne : EmployeeRepository.get_working_hours_for_day store employee_id
      (isoweekday start_time) ≠ [])
    (hnc : ∀ w ∈ EmployeeRepository.get_working_hours_for_day store employee_id
        (isoweekday start_time),
      ¬(w.start_time ≤ timeOfDay start_time ∧ timeOfDay end_time ≤ w.end_time)) :
    ScheduleService.check_availability store employee_id start_time end_time =
      { is_available := false
        reason := some (.outsideHours
          ((EmployeeRepository.get_working_hours_for_day store employee_id
            (isoweekday start_time)).map (fun wh => (wh.start_time, wh.end_time)))) }
    := by
  have hne' : (EmployeeRepository.get_working_hours_for_day store employee_id
      (isoweekday start_time)).isEmpty = false := by
    cases hlist : EmployeeRepository.get_working_hours_for_day store employee_id
        (isoweekday start_time) with
    | nil => exact absurd hlist hne
    | cons a l => simp
  have hany : (EmployeeRepository.get_working_hours_for_day store employee_id
      (isoweekday start_time)).any (fun shift =>
        decide (shift.start_time ≤ timeOfDay start_time) &&
        decide (timeOfDay end_time ≤ shift.end_time)) = false := by
    rw [List.any_eq_false]
    intro w hwmem
    simp only [Bool.and_eq_true, decide_eq_true_eq]
    exact hnc w hwmem
  unfold ScheduleService.check_availability
  simp [hne', hany]

/-- C9: with at least one working-hours rule on the interval's day, the
interval counts as within working hours iff some single rule's
time-of-day range contains its time-of-day range; if none does, the
verdict is unavailable with a reason listing that day's shift windows;
if one does and no internal event of the staff member overlaps, the
verdict is available with no reason. -/
theorem C9_single_rule_containment (store : Store)
    (employee_id start_time end_time : Nat)
    (hne : EmployeeRepository.get_working_hours_for_day store employee_id
      (isoweekday start_time) ≠ []) :
    ((∃ w ∈ EmployeeRepository.get_working_hours_for_day store employee_id
        (isoweekday start_time),
       w.start_time ≤ timeOfDay start_time ∧ timeOfDay end_time ≤ w.end_time) →
     (∀ ev ∈ store.internal_events, ev.employee_id = employee_id →
       ScheduleService.times_overlap start_time end_time ev.start_time ev.end_time
         = false) →
     ScheduleService.check_availability store employee_id start_time end_time =
       { is_available := true, reason := none }) ∧
    ((¬ ∃ w ∈ EmployeeRepository.get_working_hours_for_day store employee_id
        (isoweekday start_time),
       w.start_time ≤ timeOfDay start_time ∧ timeOfDay end_time ≤ w.end_time) →
     ScheduleService.check_availability store employee_id start_time end_time =
       { is_available := false
         reason := some (.outsideHours
           ((EmployeeRepository.get_working_hours_for_day store employee_id
             (isoweekday start_time)).map
               (fun wh => (wh.start_time, wh.end_time)))) }) := by
  refine ⟨?_, ?_⟩
  · intro hw hev
    exact check_availability_available store employee_id start_time end_time hw hev
  · intro hnc
    refine check_availability_outside store employee_id start_time end_time hne ?_
    intro w hwmem hcontain
    exact hnc ⟨w, hwmem, hcontain⟩

/-- C9 witness: in `storeA` the Monday interval 10:00-11:00 is inside
the 09:00-17:00 shift and no event overlaps, so the verdict is available
with no reason; 16:30-17:30 fits no single rule, so the verdict is
unavailable with the day's shift window in the reason. -/
theorem C9_single_rule_containment_witness :
    ScheduleService.check_availability storeA 1 600 660 =
      { is_available := true, reason := none } ∧
    ScheduleService.check_availability storeA 1 990 1050 =
      { is_available := false
        reason := some (.outsideHours [(540, 1020)]) } := by
  constructor
  · exact (C9_single_rule_containment storeA 1 600 660 (by decide)).1
      ⟨⟨1, 1, 1, 540, 1020⟩, by decide, by decide, by decide⟩
      (by intro ev hmem; cases hmem)
  · have h := (C9_single_rule_containment storeA 1 990 1050 (by decide)).2 ?_
    · exact h.trans (by decide)
    · rintro ⟨w, hw, h1, h2⟩
      have hl : EmployeeRepository.get_working_hours_for_day storeA 1
          (isoweekday 990) = [⟨1, 1, 1, 540, 1020⟩] := by decide
      rw [hl] at hw
      simp at hw
      subst hw
      exact absurd h2 (by decide)

theorem slotLoop_mem (internal_events : List InternalEvent) (bookings : List Booking)
    (duration_minutes slot_interval_minutes shift_end : Nat) (s : Slot) :
    ∀ fuel cur, s ∈ ScheduleService.slotLoop internal_events bookings
        duration_minutes slot_interval_minutes shift_end fuel cur →
      cur ≤ s.start_time ∧ s.end_time = s.start_time + duration_minutes ∧
      s.start_time + duration_minutes ≤ shift_end ∧
      ScheduleService.slotConflict internal_events bookings s.start_time
        (s.start_time + duration_minutes) = false := by
  intro fuel
  induction fuel with
  | zero => intro cur hs; simp [ScheduleService.slotLoop] at hs
  | succ fuel ih =>
    intro cur hs
    simp only [ScheduleService.slotLoop] at hs
    by_cases hg : cur + duration_minutes ≤ shift_end
    · rw [if_pos hg] at hs
      by_cases hc : ScheduleService.slotConflict internal_events bookings cur
          (cur + duration_minutes) = true
      · rw [if_pos hc] at hs
        have h := ih (cur + slot_interval_minutes) hs
        exact ⟨le_trans (Nat.le_add_right _ _) h.1, h.2⟩
      · rw [if_neg hc] at hs
        rcases List.mem_cons.mp hs with h | h
        · subst h
          refine ⟨le_refl _, rfl, hg, ?_⟩
          simpa using hc
        · have h := ih (cur + slot_interval_minutes) h
          exact ⟨le_trans (Nat.le_add_right _ _) h.1, h.2⟩
    · rw [if_neg hg] at hs
      cases hs

theorem slotsForShifts_mem (internal_events : List InternalEvent)
    (bookings : List Booking)
    (duration_minutes slot_interval_minutes day_start : Nat)
    (whs : List WorkingHour) (s : Slot)
    (hs : s ∈ ScheduleService.slotsForShifts internal_events bookings
      duration_minutes slot_interval_minutes day_start whs) :
    ∃ w ∈ whs, day_start + w.start_time ≤ s.start_time ∧
      s.end_time = s.start_time + duration_minutes ∧
      s.start_time + duration_minutes ≤ day_start + w.end_time ∧
      ScheduleService.slotConflict internal_events bookings s.start_time
        (s.start_time + duration_minutes) = false := by
  induction whs with
  | nil => simp [ScheduleService.slotsForShifts] at hs
  | cons w ws ih =>
    simp only [ScheduleService.slotsForShifts] at hs
    rcases List.mem_append.mp hs with h | h
    · have hm := slotLoop_mem internal_events bookings duration_minutes
        slot_interval_minutes (day_start + w.end_time) s _ _ h
      exact ⟨w, List.mem_cons_self _ _, hm.1, hm.2.1, hm.2.2.1, hm.2.2.2⟩
    · obtain ⟨w', hw', hrest⟩ := ih h
      exact ⟨w', List.mem_cons_of_mem _ hw', hrest⟩

theorem timeOfDay_day_add (date t : Nat) (ht : t < minutesPerDay) :
    timeOfDay (dayStartOf date + t) = t := by
  unfold timeOfDay dayStartOf minutesPerDay at *
  omega

theorem isoweekday_day_add (date t : Nat) (ht : t < minutesPerDay) :
    isoweekday (dayStartOf date + t) = isoweekday date := by
  unfold isoweekday dayStartOf minutesPerDay at *
  omega

/-- C5: every slot the generator returns is accepted by the evaluator on
the same store state (for any store whose shift ends stay within the day,
as Python times do). -/
theorem C5_generated_slots_pass_check (store : Store)
    (employee_id date duration_minutes slot_interval_minutes : Nat) (s : Slot)
    (hwf : ∀ w ∈ store.working_hours, w.end_time ≤ minutesPerDay - 1)
    (hs : s ∈ ScheduleService.get_available_slots store employee_id date
      duration_minutes slot_interval_minutes) :
    (ScheduleService.check_availability store employee_id s.start_time
      s.end_time).is_available = true := by
  simp only [ScheduleService.get_available_slots] at hs
  by_cases hemp : (EmployeeRepository.get_working_hours_for_day store employee_id
      (isoweekday date)).isEmpty = true
  · rw [if_pos hemp] at hs
    cases hs
  · rw [if_neg hemp] at hs
    obtain ⟨w, hw, hle, hend, hfit, hnc⟩ :=
      slotsForShifts_mem _ _ _ _ _ _ _ hs
    obtain ⟨hwstore, hwemp, hwday⟩ :=
      (mem_get_working_hours_for_day store employee_id (isoweekday date) w).1 hw
    have hwend : w.end_time ≤ minutesPerDay - 1 := hwf w hwstore
    have hday_pos : 0 < minutesPerDay := by decide
    have hst : s.start_time = dayStartOf date + (s.start_time - dayStartOf date) := by
      omega
    set t := s.start_time - dayStartOf date with htdef
    have htw : w.start_time ≤ t := by omega
    have htfit : t + duration_minutes ≤ w.end_time := by omega
    have htlt : t < minutesPerDay := by omega
    have htend : t + duration_minutes < minutesPerDay := by omega
    have h1 : timeOfDay s.start_time = t := by
      rw [hst]; exact timeOfDay_day_add _ _ htlt
    have h2 : timeOfDay s.end_time = t + duration_minutes := by
      rw [hend, hst, Nat.add_assoc]
      exact timeOfDay_day_add _ _ htend
    have h3 : isoweekday s.start_time = isoweekday date := by
      rw [hst]; exact isoweekday_day_add _ _ htlt
    have havail := check_availability_available store employee_id s.start_time
      s.end_time ?_ ?_
    · rw [havail]
    · refine ⟨w, ?_, ?_, ?_⟩
      · rw [h3]; exact hw
      · rw [h1]; exact htw
      · rw [h2]; exact htfit
    · intro ev hevmem hevemp
      by_contra hovl
      have hovl' : s.start_time < ev.end_time ∧ ev.start_time < s.end_time := by
        unfold ScheduleService.times_overlap at hovl
        simpa using hovl
      have hevday : ev ∈ EmployeeRepository.get_employee_internal_events store
          employee_id (some (dayStartOf date))
          (some (dayStartOf date + (minutesPerDay - 1))) := by
        rw [mem_get_employee_internal_events]
        refine ⟨hevmem, hevemp, by omega, by omega⟩
      have hnoev : (EmployeeRepository.get_employee_internal_events store
          employee_id (some (dayStartOf date))
          (some (dayStartOf date + (minutesPerDay - 1)))).any (fun event =>
            ScheduleService.times_overlap s.start_time
              (s.start_time + duration_minutes) event.start_time event.end_time)
          = false := by
        unfold ScheduleService.slotConflict at hnc
        exact (Bool.or_eq_false_iff.mp hnc).1
      have := (List.any_eq_false.mp hnoev) ev hevday
      unfold ScheduleService.times_overlap at this
      rw [hend] at hovl'
      simp at this
      omega

/-- C5 witness: the first slot `storeA`'s generator emits for Monday,
duration 60, interval 30, is 09:00-10:00, and the evaluator accepts it. -/
theorem C5_generated_slots_pass_check_witness :
    (ScheduleService.check_availability storeA 1 540 600).is_available = true :=
  C5_generated_slots_pass_check storeA 1 0 60 30 ⟨540, 600⟩ (by decide) (by decide)

end BookingEngine
